import Mathlib

/-!
Verification of the permanent-configuration registry of firewalld
(`src/firewall/core/fw_config.py`, class `FirewallConfig`).

The six per-kind handler families (ipsets, icmptypes, services, zones,
helpers, policy objects) are textually near-identical in the source; we
embed them once, generically, parameterized by a `Hooks` record holding the
kind's custom root directory, its external collaborators (reader, name
checker, config importer, cross-kind full check) and the flag that
distinguishes the hierarchical kinds (zones, policies: path matching by
`startswith`) from the flat kinds (path matching by equality).

Python dicts are embedded as association lists in insertion order, which
mirrors dict iteration order.  Keys of a Python dict are unique, so
"replace first occurrence" / "drop the key" are the dict update/delete
semantics.  Raising an exception is embedded by returning an error value
together with the state at the raise point, so "no mutation happened
before the raise" is a provable statement, not an artifact of the monad.
File-system writes performed by an operation are collected in an explicit
`FileOp` trace.
-/

namespace FwConfig

/-- Opaque kind-specific payload of a config object.  The registry treats
the payload as opaque (`export_config`/`import_config` only move it in and
out), so a single abstract value suffices. -/
abbrev Conf := Nat

/-- One permanent configuration object, as the registry sees it: the
fields `name`, `filename`, `path`, `builtin`, `default` are exactly the
fields `fw_config.py` reads and writes on the IO objects; everything else
is the opaque payload. -/
structure ConfObj where
  name : String
  filename : String
  path : String
  builtin : Bool
  default : Bool
  payload : Conf
  deriving DecidableEq

/-- The error taxonomy of `firewall.errors` restricted to the codes raised
in `fw_config.py`.  `notFound` stands for the per-kind INVALID_* codes
(INVALID_IPSET, INVALID_ZONE, ...), `builtinProtected` for the per-kind
BUILTIN_* codes. -/
inductive FwError where
  | notFound (msg : String)
  | nameConflict (msg : String)
  | noDefaults (msg : String)
  | builtinProtected (msg : String)
  | invalidDirectory (msg : String)
  | invalidName (msg : String)
  | validationError (msg : String)
  | osError (msg : String)
  deriving DecidableEq

/-- A Python dict from names to config objects, in insertion order. -/
abbrev Registry := List (String × ConfObj)

/-- Dict membership test / lookup (`name in d`, `d[name]`). -/
def lookupReg : Registry → String → Option ConfObj
  | [], _ => none
  | p :: rest, n => if p.1 == n then some p.2 else lookupReg rest n

def memberReg (r : Registry) (n : String) : Bool :=
  (lookupReg r n).isSome

/-- Dict assignment `d[n] = o`: replace the entry in place when the key is
present, append otherwise. -/
def insertReg : Registry → String → ConfObj → Registry
  | [], n, o => [(n, o)]
  | p :: rest, n, o => if p.1 == n then (n, o) :: rest else p :: insertReg rest n o

/-- Dict deletion `del d[n]` (dict keys are unique, so dropping every
entry with the key coincides with dict semantics). -/
def eraseReg (r : Registry) (n : String) : Registry :=
  r.filter (fun p => p.1 != n)

def regNames (r : Registry) : List String := r.map Prod.fst

/-- Lexicographic comparison of character lists by code point. -/
def charsLe : List Char → List Char → Bool
  | [], _ => true
  | _ :: _, [] => false
  | a :: as, b :: bs =>
    if a.toNat < b.toNat then true
    else if b.toNat < a.toNat then false
    else charsLe as bs

/-- Python's string ordering (lexicographic by code point). -/
def strLe (a b : String) : Bool := charsLe a.toList b.toList

/-- Insertion into a lexicographically sorted list of strings. -/
def insertSorted (x : String) : List String → List String
  | [] => [x]
  | y :: ys => if strLe x y then x :: y :: ys else y :: insertSorted x ys

/-- Python `sorted` on strings. -/
def sortStrings : List String → List String
  | [] => []
  | x :: xs => insertSorted x (sortStrings xs)

/-- The two tiers of one kind's registry: `custom` embeds e.g.
`self._ipsets`, `builtin` embeds `self._builtin_ipsets`. -/
structure TierState where
  custom : Registry
  builtin : Registry
  deriving DecidableEq

/-- `get_<kind>s()`: `sorted(set(custom keys + builtin keys))`. -/
def list_objs (s : TierState) : List String :=
  sortStrings ((regNames s.custom ++ regNames s.builtin).dedup)

/-- `get_<kind>(name)`: custom tier first, else builtin tier, else raise
the kind's INVALID_* (NotFound-class) error. -/
def get_obj (s : TierState) (n : String) : Except FwError ConfObj :=
  match lookupReg s.custom n with
  | some o => .ok o
  | none =>
    match lookupReg s.builtin n with
    | some o => .ok o
    | none => .error (.notFound n)

/-- `add_<kind>(obj)`: store into the tier selected by `obj.builtin`. -/
def add_obj (s : TierState) (o : ConfObj) : TierState :=
  if o.builtin then { s with builtin := insertReg s.builtin o.name o }
  else { s with custom := insertReg s.custom o.name o }

/-- Split a character list at `/` separators. -/
def splitSlash : List Char → List (List Char)
  | [] => [[]]
  | c :: rest =>
    let r := splitSlash rest
    if c = '/' then [] :: r
    else
      match r with
      | [] => [[c]]
      | seg :: segs => (c :: seg) :: segs

/-- The `/`-separated components of a path. -/
def pathParts (p : String) : List String :=
  (splitSlash p.toList).map fun l => String.mk l

/-- Join path components with `/`. -/
def joinSlash : List String → String
  | [] => ""
  | [x] => x
  | x :: xs => x ++ "/" ++ joinSlash xs

/-- `os.path.basename` for the slash-separated paths the watcher reports. -/
def basename (p : String) : String := (pathParts p).getLastD ""

/-- `os.path.dirname` for the slash-separated paths the watcher reports. -/
def dirname (p : String) : String := joinSlash ((pathParts p).dropLast)

/-- `str.startswith` at the character level: does the first list start
with the second? -/
def charsStarts : List Char → List Char → Bool
  | _, [] => true
  | [], _ :: _ => false
  | a :: as, b :: bs => a == b && charsStarts as bs

/-- `s.startswith(t)`. -/
def strStarts (s t : String) : Bool := charsStarts s.toList t.toList

/-- `filename[0:-4]`: strip the `.xml` suffix. -/
def stemOfXml (filename : String) : String :=
  String.mk (filename.toList.take (filename.toList.length - 4))

/-- A file-system side effect performed by an operation. -/
inductive FileOp where
  | write (path filename : String)
  | backupMove (name : String)
  | removeFile (name : String)
  deriving DecidableEq

/-- Result of one stateful registry operation: the returned value or the
raised error, the tier state at return/raise time, and the file operations
performed. -/
structure Step (α : Type) where
  result : Except FwError α
  state : TierState
  fileOps : List FileOp

/-- The external collaborators and static data of one kind. -/
structure Hooks where
  /-- The kind's custom root directory (e.g. `config.ETC_FIREWALLD_IPSETS`). -/
  customRoot : String
  /-- `IO_Object.check_name`; `none` means the name is acceptable. -/
  checkName : String → Option FwError
  /-- `import_config` restricted to the opaque payload it actually moves. -/
  importConf : Conf → Except FwError Conf
  /-- `full_check_config({kind: [x]})` as seen from one kind: the
  cross-kind validation of the candidate, abstracted to its outcome. -/
  fullCheck : ConfObj → Option FwError
  /-- The kind's reader collaborator (`ipset_reader`, ...); takes filename
  and directory, fails on malformed input. -/
  reader : String → String → Except String ConfObj
  /-- `os.path.exists` for the reported path. -/
  pathExists : String → Bool
  /-- Whether `shutil.move` to the `.old` backup fails for this file. -/
  moveFails : String → Bool
  /-- Hierarchical kinds (zones, policies) match the custom root by
  `startswith`; flat kinds by equality. -/
  hierarchical : Bool

/-- Custom-root test used throughout the per-kind handlers:
`path == ETC_ROOT` for flat kinds, `path.startswith(ETC_ROOT)` for the
hierarchical kinds. -/
def isCustomPath (h : Hooks) (p : String) : Bool :=
  if h.hierarchical then strStarts p h.customRoot else p == h.customRoot

/-- `new_<kind>(name, conf)` (e.g. `new_ipset`, `new_zone_dict`): reject a
name present in either tier with NAME_CONFLICT before touching anything;
otherwise build the candidate (custom tier, `default=True`), import the
payload, run the cross-kind check, and only then register and write. -/
def new_obj (h : Hooks) (s : TierState) (nm : String) (conf : Conf) : Step ConfObj :=
  if memberReg s.custom nm || memberReg s.builtin nm then
    ⟨.error (.nameConflict nm), s, []⟩
  else
    match h.checkName nm with
    | some e => ⟨.error e, s, []⟩
    | none =>
      match h.importConf conf with
      | .error e => ⟨.error e, s, []⟩
      | .ok p =>
        let x : ConfObj :=
          { name := nm, filename := nm ++ ".xml", path := h.customRoot,
            builtin := false, default := true, payload := p }
        match h.fullCheck x with
        | some e => ⟨.error e, s, []⟩
        | none => ⟨.ok x, add_obj s x, [.write x.path x.filename]⟩

/-- `check_builtin_<kind>(obj)`: raise the kind's BUILTIN_* error when the
object is builtin or not default. -/
def check_builtin_obj (o : ConfObj) : Option FwError :=
  if o.builtin || !o.default then some (.builtinProtected o.name) else none

/-- `_remove_<kind>(obj)`: require a custom entry under the object's name
and a path under the custom root, back up (or, failing that, delete) the
file, and drop the custom entry. -/
def remove_obj_internal (h : Hooks) (s : TierState) (o : ConfObj) : Step Unit :=
  if !(memberReg s.custom o.name) then ⟨.error (.notFound o.name), s, []⟩
  else if !(isCustomPath h o.path) then ⟨.error (.invalidDirectory o.path), s, []⟩
  else
    let fname := o.path ++ "/" ++ o.name ++ ".xml"
    let ops := if h.moveFails fname then [FileOp.removeFile fname] else [FileOp.backupMove fname]
    ⟨.ok (), { s with custom := eraseReg s.custom o.name }, ops⟩

/-- `remove_<kind>(obj)`: the builtin/default eligibility gate, then the
internal removal. -/
def remove_obj (h : Hooks) (s : TierState) (o : ConfObj) : Step Unit :=
  match check_builtin_obj o with
  | some e => ⟨.error e, s, []⟩
  | none => remove_obj_internal h s o

/-- `rename_<kind>(obj, name)` in the copy-then-remove style used by
ipsets, icmptypes, services, helpers and policies: eligibility gate, then
`new` under the new name from the exported config, then internal removal
of the old object. -/
def rename_obj (h : Hooks) (s : TierState) (o : ConfObj) (nm : String) : Step ConfObj :=
  match check_builtin_obj o with
  | some e => ⟨.error e, s, []⟩
  | none =>
    let st1 := new_obj h s nm o.payload
    match st1.result with
    | .error e => ⟨.error e, st1.state, st1.fileOps⟩
    | .ok nw =>
      let st2 := remove_obj_internal h st1.state o
      match st2.result with
      | .error e => ⟨.error e, st2.state, st1.fileOps ++ st2.fileOps⟩
      | .ok _ => ⟨.ok nw, st2.state, st1.fileOps ++ st2.fileOps⟩

/-- `rename_zone(obj, name)`: eligibility gate, removal first, then `new`
under the new name; if that fails the original is re-created and the
failure re-raised. -/
def rename_obj_zone_style (h : Hooks) (s : TierState) (o : ConfObj) (nm : String) :
    Step ConfObj :=
  match check_builtin_obj o with
  | some e => ⟨.error e, s, []⟩
  | none =>
    let st1 := remove_obj_internal h s o
    match st1.result with
    | .error e => ⟨.error e, st1.state, st1.fileOps⟩
    | .ok _ =>
      let st2 := new_obj h st1.state nm o.payload
      match st2.result with
      | .ok nw => ⟨.ok nw, st2.state, st1.fileOps ++ st2.fileOps⟩
      | .error e =>
        let st3 := new_obj h st2.state o.name o.payload
        match st3.result with
        | .ok _ => ⟨.error e, st3.state, st1.fileOps ++ st2.fileOps ++ st3.fileOps⟩
        | .error e3 => ⟨.error e3, st3.state, st1.fileOps ++ st2.fileOps ++ st3.fileOps⟩

/-- The copy `set_<kind>_config` makes of a builtin object before editing
it: path moved to the custom root, builtin flag cleared, and the
`default` flag cleared exactly when the original path differs from the
custom root. -/
def builtinEditBase (h : Hooks) (o : ConfObj) : ConfObj :=
  { o with path := h.customRoot, builtin := false,
           default := if o.path != h.customRoot then false else o.default }

/-- `set_<kind>_config(obj, conf)` (e.g. `set_ipset_config`,
`set_zone_config_dict`): copy the object (materializing a custom-tier copy
when it is builtin), import the payload, run the cross-kind check, then
register and write. -/
def set_obj_config (h : Hooks) (s : TierState) (o : ConfObj) (conf : Conf) : Step ConfObj :=
  let x0 := if o.builtin then builtinEditBase h o else o
  match h.importConf conf with
  | .error e => ⟨.error e, s, []⟩
  | .ok p =>
    let x := { x0 with payload := p }
    match h.fullCheck x with
    | some e => ⟨.error e, s, []⟩
    | none => ⟨.ok x, add_obj s x, [.write x.path x.filename]⟩

/-- The change action reported back to the notification layer:
`("new", obj)`, `("update", obj)`, `("remove", obj)` in the source. -/
inductive Action where
  | new
  | update
  | remove
  deriving DecidableEq

/-- `(None, None)` is embedded as `none`. -/
abbrev UpdateRet := Option (Action × ConfObj)

/-- The hierarchical-name rewrite of the zone/policy updaters: when the
changed path lies strictly below the custom root, the logical name becomes
`<subdirectory>/<stem>`; flat kinds keep the name the reader produced. -/
def derivedName (h : Hooks) (dir filename : String) (o : ConfObj) : String :=
  if h.hierarchical = true ∧ strStarts dir h.customRoot = true ∧
      h.customRoot.length < dir.length then
    basename dir ++ "/" ++ stemOfXml filename
  else o.name

/-- `update_<kind>_from_path(name)`: the reconciliation engine.  Mirrors
`update_ipset_from_path` (flat kinds) and `update_zone_from_path`
(hierarchical kinds, via `Hooks.hierarchical`): deletion branches match the
registered entry by filename; the read branch swallows reader failures;
a custom-tier replacement inherits the prior entry's `default` flag. -/
def update_from_path (h : Hooks) (s : TierState) (fullpath : String) :
    UpdateRet × TierState :=
  let filename := basename fullpath
  let dir := dirname fullpath
  if h.pathExists fullpath = false then
    if isCustomPath h dir then
      match s.custom.find? (fun p => p.2.filename == filename) with
      | some p =>
        let s' := { s with custom := eraseReg s.custom p.1 }
        match lookupReg s.builtin p.2.name with
        | some b => (some (.update, b), s')
        | none => (some (.remove, p.2), s')
      | none => (none, s)
    else
      match s.builtin.find? (fun p => p.2.filename == filename) with
      | some p =>
        let s' := { s with builtin := eraseReg s.builtin p.1 }
        if memberReg s.custom p.2.name then (none, s')
        else (some (.remove, p.2), s')
      | none => (none, s)
  else
    match h.reader filename dir with
    | .error _ => (none, s)
    | .ok obj0 =>
      let obj1 := { obj0 with name := derivedName h dir filename obj0 }
      if !(memberReg s.builtin obj1.name) && !(memberReg s.custom obj1.name) then
        (some (.new, obj1), add_obj s obj1)
      else if isCustomPath h dir then
        match lookupReg s.custom obj1.name with
        | some prev =>
          let obj2 := { obj1 with default := prev.default }
          (some (.update, obj2), { s with custom := insertReg s.custom obj2.name obj2 })
        | none => (some (.update, obj1), s)
      else if memberReg s.builtin obj1.name then
        let s' := { s with
          builtin := insertReg (eraseReg s.builtin obj1.name) obj1.name obj1 }
        if memberReg s.custom obj1.name then (none, s')
        else (some (.update, obj1), s')
      else (none, s)

/-! ### Concrete instances used by witnesses -/

/-- Hooks for a flat kind whose collaborators all succeed. -/
def hooks0 : Hooks :=
  { customRoot := "/etc/firewalld/ipsets",
    checkName := fun _ => none,
    importConf := fun c => .ok c,
    fullCheck := fun _ => none,
    reader := fun _ _ => .error "unused",
    pathExists := fun _ => false,
    moveFails := fun _ => false,
    hierarchical := false }

/-- A builtin-tier object named `office`. -/
def bObj : ConfObj :=
  ⟨"office", "office.xml", "/usr/lib/firewalld/ipsets", true, true, 1⟩

/-- A custom-tier object named `office` shadowing `bObj`. -/
def cObj : ConfObj :=
  ⟨"office", "office.xml", "/etc/firewalld/ipsets", false, true, 2⟩

/-- A custom-tier object whose `default` flag is cleared (locked). -/
def cObjLocked : ConfObj :=
  ⟨"dmz", "dmz.xml", "/etc/firewalld/ipsets", false, false, 3⟩

/-- A locked custom `office` entry, used to exercise `default`
preservation across reload. -/
def lockedOffice : ConfObj :=
  ⟨"office", "office.xml", "/etc/firewalld/ipsets", false, false, 7⟩

/-- The object a successful reader produces for the `office` file; note
its `default` flag is `true`. -/
def readOffice : ConfObj :=
  ⟨"office", "office.xml", "/etc/firewalld/ipsets", false, true, 9⟩

/-- Hooks for a flat kind whose file exists but is malformed. -/
def hooksReadFail : Hooks :=
  { hooks0 with pathExists := fun _ => true, reader := fun _ _ => .error "malformed" }

/-- Hooks for a flat kind whose file exists and reads back `readOffice`. -/
def hooksRead : Hooks :=
  { hooks0 with pathExists := fun _ => true, reader := fun _ _ => .ok readOffice }

/-! ### Registry lemmas -/

theorem lookup_insert (r : Registry) (m : String) (o : ConfObj) (n : String) :
    lookupReg (insertReg r m o) n = if n = m then some o else lookupReg r n := by
  induction r with
  | nil =>
    by_cases hnm : n = m
    · subst hnm; simp [insertReg, lookupReg]
    · simp [insertReg, lookupReg, hnm, Ne.symm hnm]
  | cons p rest ih =>
    by_cases hpm : p.1 = m
    · by_cases hnm : n = m
      · subst hnm; simp [insertReg, lookupReg, hpm]
      · simp [insertReg, lookupReg, hpm, hnm, Ne.symm hnm]
    · by_cases hnm : n = m
      · subst hnm; simp [insertReg, lookupReg, hpm, ih]
      · simp [insertReg, lookupReg, hpm, hnm, ih]

theorem lookup_erase_self (r : Registry) (n : String) :
    lookupReg (eraseReg r n) n = none := by
  induction r with
  | nil => rfl
  | cons p rest ih =>
    by_cases hp : p.1 = n
    · simpa [eraseReg, List.filter_cons, hp] using ih
    · simpa [eraseReg, List.filter_cons, hp, lookupReg] using ih

theorem memberReg_of_lookup {r : Registry} {n : String} {o : ConfObj}
    (h : lookupReg r n = some o) : memberReg r n = true := by
  simp [memberReg, h]

/-! ### Claim theorems: the layered registry -/

/-- C1: for every kind and name, lookup returns the custom-tier object
when one is registered, else the builtin-tier object, else fails with the
kind's NotFound-class error; and in the shadowing scenario (builtin and
custom object of the same name registered), `get` returns the custom
object, and after removing the custom object it returns the builtin
object. -/
theorem get_two_tier_lookup (h : Hooks) (s : TierState) (n : String) (b c : ConfObj)
    (hbn : b.name = n) (hcn : c.name = n) (hbb : b.builtin = true)
    (hcb : c.builtin = false) (hcd : c.default = true)
    (hcp : isCustomPath h c.path = true) :
    (∀ o, lookupReg s.custom n = some o → get_obj s n = .ok o) ∧
    (lookupReg s.custom n = none →
      ∀ o, lookupReg s.builtin n = some o → get_obj s n = .ok o) ∧
    (lookupReg s.custom n = none → lookupReg s.builtin n = none →
      get_obj s n = .error (.notFound n)) ∧
    get_obj (add_obj (add_obj s b) c) n = .ok c ∧
    (remove_obj h (add_obj (add_obj s b) c) c).result = .ok () ∧
    get_obj (remove_obj h (add_obj (add_obj s b) c) c).state n = .ok b := by
  subst hcn
  have hs1 : add_obj (add_obj s b) c =
      ⟨insertReg s.custom c.name c, insertReg s.builtin b.name b⟩ := by
    simp [add_obj, hbb, hcb]
  have hlc : lookupReg (insertReg s.custom c.name c) c.name = some c := by
    simp [lookup_insert]
  have hremres : (remove_obj h (add_obj (add_obj s b) c) c).result = Except.ok () := by
    rw [hs1]
    simp [remove_obj, check_builtin_obj, hcb, hcd, remove_obj_internal,
          memberReg_of_lookup hlc, hcp]
  have hremstate : (remove_obj h (add_obj (add_obj s b) c) c).state =
      ⟨eraseReg (insertReg s.custom c.name c) c.name, insertReg s.builtin b.name b⟩ := by
    rw [hs1]
    simp [remove_obj, check_builtin_obj, hcb, hcd, remove_obj_internal,
          memberReg_of_lookup hlc, hcp]
  refine ⟨?_, ?_, ?_, ?_, hremres, ?_⟩
  · intro o ho; simp [get_obj, ho]
  · intro hc o ho; simp [get_obj, hc, ho]
  · intro hc hb; simp [get_obj, hc, hb]
  · rw [hs1]; simp [get_obj, hlc]
  · rw [hremstate]; simp [get_obj, lookup_erase_self, lookup_insert, hbn]

/-- C1 witness: concrete shadowing scenario for a flat kind. -/
theorem get_two_tier_lookup_witness :
    get_obj (add_obj (add_obj ⟨[], []⟩ bObj) cObj) "office" = .ok cObj ∧
    (remove_obj hooks0 (add_obj (add_obj ⟨[], []⟩ bObj) cObj) cObj).result = .ok () ∧
    get_obj (remove_obj hooks0 (add_obj (add_obj ⟨[], []⟩ bObj) cObj) cObj).state "office" =
      .ok bObj := by
  have h := get_two_tier_lookup hooks0 ⟨[], []⟩ "office" bObj cObj
    (by decide) (by decide) (by decide) (by decide) (by decide) (by decide)
  exact ⟨h.2.2.2.1, h.2.2.2.2.1, h.2.2.2.2.2⟩

/-- C2: creating a new object with a name already present in either tier
fails with NameConflict, writes no file, and leaves the kind's registry
unchanged. -/
theorem new_obj_name_conflict (h : Hooks) (s : TierState) (nm : String) (c : Conf)
    (hc : memberReg s.custom nm = true ∨ memberReg s.builtin nm = true) :
    new_obj h s nm c = ⟨.error (.nameConflict nm), s, []⟩ := by
  unfold new_obj
  rcases hc with h1 | h1 <;> simp [h1]

/-- C2 witness: a name present in the custom tier and a name present in
the builtin tier are both rejected without touching state or files. -/
theorem new_obj_name_conflict_witness :
    new_obj hooks0 ⟨[("office", cObj)], []⟩ "office" 5 =
      ⟨.error (.nameConflict "office"), ⟨[("office", cObj)], []⟩, []⟩ ∧
    new_obj hooks0 ⟨[], [("office", bObj)]⟩ "office" 5 =
      ⟨.error (.nameConflict "office"), ⟨[], [("office", bObj)]⟩, []⟩ :=
  ⟨new_obj_name_conflict hooks0 ⟨[("office", cObj)], []⟩ "office" 5 (Or.inl (by decide)),
   new_obj_name_conflict hooks0 ⟨[], [("office", bObj)]⟩ "office" 5 (Or.inr (by decide))⟩

/-- C3: remove and rename on an object that is builtin or not default
always fail with the kind's BuiltinProtected-class error, mutate nothing,
and leave `list()` unchanged (both the copy-then-remove rename used by the
flat kinds and the remove-then-recreate rename used by zones). -/
theorem remove_rename_builtin_protected (h : Hooks) (s : TierState) (o : ConfObj)
    (nm : String) (hp : o.builtin = true ∨ o.default = false) :
    remove_obj h s o = ⟨.error (.builtinProtected o.name), s, []⟩ ∧
    rename_obj h s o nm = ⟨.error (.builtinProtected o.name), s, []⟩ ∧
    rename_obj_zone_style h s o nm = ⟨.error (.builtinProtected o.name), s, []⟩ ∧
    list_objs (remove_obj h s o).state = list_objs s ∧
    list_objs (rename_obj h s o nm).state = list_objs s ∧
    list_objs (rename_obj_zone_style h s o nm).state = list_objs s := by
  have hcb : check_builtin_obj o = some (.builtinProtected o.name) := by
    unfold check_builtin_obj
    rcases hp with h1 | h1 <;> simp [h1]
  refine ⟨?_, ?_, ?_, ?_, ?_, ?_⟩ <;>
    simp [remove_obj, rename_obj, rename_obj_zone_style, hcb]

/-- C3 witness: a builtin object and a non-default custom object are both
protected from remove and rename. -/
theorem remove_rename_builtin_protected_witness :
    remove_obj hooks0 ⟨[], [("office", bObj)]⟩ bObj =
      ⟨.error (.builtinProtected "office"), ⟨[], [("office", bObj)]⟩, []⟩ ∧
    rename_obj hooks0 ⟨[("dmz", cObjLocked)], []⟩ cObjLocked "dmz2" =
      ⟨.error (.builtinProtected "dmz"), ⟨[("dmz", cObjLocked)], []⟩, []⟩ :=
  ⟨(remove_rename_builtin_protected hooks0 ⟨[], [("office", bObj)]⟩ bObj "x"
      (Or.inl (by decide))).1,
   (remove_rename_builtin_protected hooks0 ⟨[("dmz", cObjLocked)], []⟩ cObjLocked "dmz2"
      (Or.inr (by decide))).2.1⟩

/-! ### Claim theorems: reconciliation -/

/-- C4: on deletion of a path under the custom root whose filename matches
a registered custom entry, the custom entry is dropped; the operation
returns UPDATE with the builtin object when a same-named builtin entry
exists (and the name then resolves to the builtin object), else REMOVE
with the dropped custom object. -/
theorem update_from_path_custom_deletion (h : Hooks) (s : TierState) (fp x : String)
    (obj : ConfObj)
    (hwf : ∀ p ∈ s.custom, p.1 = p.2.name)
    (hne : h.pathExists fp = false)
    (hcust : isCustomPath h (dirname fp) = true)
    (hfind : s.custom.find? (fun p => p.2.filename == basename fp) = some (x, obj)) :
    lookupReg (update_from_path h s fp).2.custom obj.name = none ∧
    (update_from_path h s fp).2.builtin = s.builtin ∧
    (∀ b, lookupReg s.builtin obj.name = some b →
      (update_from_path h s fp).1 = some (.update, b) ∧
      get_obj (update_from_path h s fp).2 obj.name = .ok b) ∧
    (lookupReg s.builtin obj.name = none →
      (update_from_path h s fp).1 = some (.remove, obj)) := by
  have hxn : x = obj.name := hwf (x, obj) (List.mem_of_find?_eq_some hfind)
  subst hxn
  cases hlb : lookupReg s.builtin obj.name with
  | some b' =>
    have heq : update_from_path h s fp =
        (some (.update, b'), { s with custom := eraseReg s.custom obj.name }) := by
      simp [update_from_path, hne, hcust, hfind, hlb]
    refine ⟨?_, ?_, ?_, ?_⟩
    · rw [heq]; exact lookup_erase_self _ _
    · rw [heq]
    · intro b hb
      cases hb
      rw [heq]
      exact ⟨rfl, by simp [get_obj, lookup_erase_self, hlb]⟩
    · intro hb; exact Option.noConfusion hb
  | none =>
    have heq : update_from_path h s fp =
        (some (.remove, obj), { s with custom := eraseReg s.custom obj.name }) := by
      simp [update_from_path, hne, hcust, hfind, hlb]
    refine ⟨?_, ?_, ?_, ?_⟩
    · rw [heq]; exact lookup_erase_self _ _
    · rw [heq]
    · intro b hb; exact Option.noConfusion hb
    · intro _; rw [heq]

/-- C4 witness: deleting the custom `office` file while a builtin `office`
exists yields UPDATE with the builtin object, and the name then resolves
to it; deleting a custom `dmz` file with no builtin counterpart yields
REMOVE. -/
theorem update_from_path_custom_deletion_witness :
    (update_from_path hooks0 ⟨[("office", cObj)], [("office", bObj)]⟩
        "/etc/firewalld/ipsets/office.xml").1 = some (.update, bObj) ∧
    get_obj (update_from_path hooks0 ⟨[("office", cObj)], [("office", bObj)]⟩
        "/etc/firewalld/ipsets/office.xml").2 "office" = .ok bObj ∧
    (update_from_path hooks0 ⟨[("dmz", cObjLocked)], []⟩
        "/etc/firewalld/ipsets/dmz.xml").1 = some (.remove, cObjLocked) := by
  have h1 := update_from_path_custom_deletion hooks0 ⟨[("office", cObj)], [("office", bObj)]⟩
    "/etc/firewalld/ipsets/office.xml" "office" cObj
    (by decide) (by decide) (by decide) (by decide)
  have h2 := update_from_path_custom_deletion hooks0 ⟨[("dmz", cObjLocked)], []⟩
    "/etc/firewalld/ipsets/dmz.xml" "dmz" cObjLocked
    (by decide) (by decide) (by decide) (by decide)
  exact ⟨(h1.2.2.1 bObj (by decide)).1, (h1.2.2.1 bObj (by decide)).2,
         h2.2.2.2 (by decide)⟩

/-- C5: when the path exists but the kind's reader fails on it, the
operation returns the NONE action, raises nothing, and leaves both tiers
exactly as they were. -/
theorem update_from_path_reader_failure (h : Hooks) (s : TierState) (fp msg : String)
    (hex : h.pathExists fp = true)
    (hread : h.reader (basename fp) (dirname fp) = .error msg) :
    update_from_path h s fp = (none, s) := by
  simp [update_from_path, hex, hread]

/-- C5 witness: a malformed custom file leaves a populated registry
untouched. -/
theorem update_from_path_reader_failure_witness :
    update_from_path hooksReadFail ⟨[("office", cObj)], [("office", bObj)]⟩
        "/etc/firewalld/ipsets/office.xml" =
      (none, ⟨[("office", cObj)], [("office", bObj)]⟩) :=
  update_from_path_reader_failure hooksReadFail ⟨[("office", cObj)], [("office", bObj)]⟩
    "/etc/firewalld/ipsets/office.xml" "malformed" rfl rfl

/-- C9: a created/modified file under the custom root whose (derived) name
is already in the custom tier replaces the custom entry with an object
carrying the prior entry's `default` flag, and returns UPDATE with that
replacement. -/
theorem update_from_path_custom_update_preserves_default (h : Hooks) (s : TierState)
    (fp : String) (obj0 prev : ConfObj)
    (hex : h.pathExists fp = true)
    (hread : h.reader (basename fp) (dirname fp) = .ok obj0)
    (hcust : isCustomPath h (dirname fp) = true)
    (hprev : lookupReg s.custom (derivedName h (dirname fp) (basename fp) obj0) = some prev) :
    update_from_path h s fp =
      (some (.update,
        { obj0 with name := derivedName h (dirname fp) (basename fp) obj0,
                    default := prev.default }),
       { s with custom := (insertReg s.custom
          (derivedName h (dirname fp) (basename fp) obj0)
          { obj0 with name := derivedName h (dirname fp) (basename fp) obj0,
                      default := prev.default }) }) := by
  have hmem := memberReg_of_lookup hprev
  simp [update_from_path, hex, hread, hcust, hprev, hmem]

/-- C9 witness: reloading a custom `office` file whose registered entry is
locked (`default=false`) keeps the flag cleared even though the file's
content reads back as `default=true`. -/
theorem update_from_path_custom_update_witness :
    update_from_path hooksRead ⟨[("office", lockedOffice)], []⟩
        "/etc/firewalld/ipsets/office.xml" =
      (some (.update, ⟨"office", "office.xml", "/etc/firewalld/ipsets", false, false, 9⟩),
       ⟨[("office", ⟨"office", "office.xml", "/etc/firewalld/ipsets", false, false, 9⟩)], []⟩) := by
  have h := update_from_path_custom_update_preserves_default hooksRead
    ⟨[("office", lockedOffice)], []⟩ "/etc/firewalld/ipsets/office.xml"
    readOffice lockedOffice rfl rfl (by decide) (by decide)
  simpa using h

/-- C10: editing a builtin object via `set_<kind>_config` registers a
custom-tier object with `builtin=false` and `path` equal to the kind's
custom root, whose `default` flag is cleared exactly when the original
builtin object's path differs from that custom root (and kept unchanged
when the original path already equals it). -/
theorem set_obj_config_builtin_materializes (h : Hooks) (s : TierState) (o : ConfObj)
    (conf p : Conf)
    (hb : o.builtin = true)
    (himp : h.importConf conf = .ok p)
    (hchk : h.fullCheck { builtinEditBase h o with payload := p } = none) :
    set_obj_config h s o conf =
      ⟨.ok { builtinEditBase h o with payload := p },
       { s with custom := (insertReg s.custom o.name
          { builtinEditBase h o with payload := p }) },
       [.write h.customRoot o.filename]⟩ ∧
    ({ builtinEditBase h o with payload := p } : ConfObj).builtin = false ∧
    ({ builtinEditBase h o with payload := p } : ConfObj).path = h.customRoot ∧
    ({ builtinEditBase h o with payload := p } : ConfObj).default =
      (if o.path = h.customRoot then o.default else false) := by
  have hchk' := hchk
  simp [builtinEditBase] at hchk'
  refine ⟨?_, ?_, ?_, ?_⟩
  · simp [set_obj_config, builtinEditBase, hb, himp, hchk', add_obj]
  · simp [builtinEditBase]
  · simp [builtinEditBase]
  · simp only [builtinEditBase]
    by_cases hp : o.path = h.customRoot <;> simp [hp]

/-- C10 witness: editing the builtin `office` object (whose path is the
builtin root) produces a custom-tier copy at the custom root with
`builtin=false` and `default=false`. -/
theorem set_obj_config_builtin_witness :
    set_obj_config hooks0 ⟨[], [("office", bObj)]⟩ bObj 5 =
      ⟨.ok ⟨"office", "office.xml", "/etc/firewalld/ipsets", false, false, 5⟩,
       ⟨[("office", ⟨"office", "office.xml", "/etc/firewalld/ipsets", false, false, 5⟩)],
        [("office", bObj)]⟩,
       [.write "/etc/firewalld/ipsets" "office.xml"]⟩ := by
  have h := set_obj_config_builtin_materializes hooks0 ⟨[], [("office", bObj)]⟩ bObj 5 5
    rfl rfl rfl
  simpa [builtinEditBase, bObj, hooks0] using h.1

/-! ### The six-kind state and the validation orderer -/

/-- The full `FirewallConfig` registry state: one custom and one builtin
dict per kind, exactly the twelve dicts of `__init_vars`. -/
structure FWState where
  ipsets : Registry
  icmptypes : Registry
  services : Registry
  zones : Registry
  helpers : Registry
  policy_objects : Registry
  builtin_ipsets : Registry
  builtin_icmptypes : Registry
  builtin_services : Registry
  builtin_zones : Registry
  builtin_helpers : Registry
  builtin_policy_objects : Registry
  deriving DecidableEq

/-- The six managed kinds. -/
inductive Kind where
  | ipsets
  | icmptypes
  | services
  | zones
  | helpers
  | policies
  deriving DecidableEq

/-- The dict key used for the kind in `get_all_io_objects_dict`. -/
def Kind.key : Kind → String
  | .ipsets => "ipsets"
  | .icmptypes => "icmptypes"
  | .services => "services"
  | .zones => "zones"
  | .helpers => "helpers"
  | .policies => "policies"

/-- The kind's custom-tier dict (`self._ipsets`, ...). -/
def Kind.customOf : Kind → FWState → Registry
  | .ipsets, s => s.ipsets
  | .icmptypes, s => s.icmptypes
  | .services, s => s.services
  | .zones, s => s.zones
  | .helpers, s => s.helpers
  | .policies, s => s.policy_objects

/-- The kind's builtin-tier dict (`self._builtin_ipsets`, ...). -/
def Kind.builtinOf : Kind → FWState → Registry
  | .ipsets, s => s.builtin_ipsets
  | .icmptypes, s => s.builtin_icmptypes
  | .services, s => s.builtin_services
  | .zones, s => s.builtin_zones
  | .helpers, s => s.builtin_helpers
  | .policies, s => s.builtin_policy_objects

/-- Replace the kind's custom-tier dict. -/
def Kind.setCustomOf : Kind → FWState → Registry → FWState
  | .ipsets, s, r => { s with ipsets := r }
  | .icmptypes, s, r => { s with icmptypes := r }
  | .services, s, r => { s with services := r }
  | .zones, s, r => { s with zones := r }
  | .helpers, s, r => { s with helpers := r }
  | .policies, s, r => { s with policy_objects := r }

/-- Two-tier lookup: custom entry if present, else builtin entry. -/
def twoTier (c b : Registry) (n : String) : Option ConfObj :=
  match lookupReg c n with
  | some o => some o
  | none => lookupReg b n

/-- One kind's entry of `get_all_io_objects_dict`:
`{name: self.get_<kind>(name) for name in self.get_<kind>s()}`, where
`get_<kind>s()` is the sorted union of the two tiers' names. -/
def mergedReg (c b : Registry) : Registry :=
  (sortStrings ((regNames c ++ regNames b).dedup)).filterMap
    (fun n => (twoTier c b n).map (fun o => (n, o)))

/-- The dict of dicts `get_all_io_objects_dict` returns, keyed by kind
name, in its insertion order. -/
abbrev KindMap := List (String × Registry)

def kmLookup : KindMap → String → Registry
  | [], _ => []
  | p :: rest, k => if p.1 == k then p.2 else kmLookup rest k

/-- Replace the registry stored under an existing kind key; a key that is
not present is left alone (the source would raise `KeyError` there, which
is unreachable for the six valid kind keys). -/
def kmSet : KindMap → String → Registry → KindMap
  | [], _, _ => []
  | p :: rest, k, r => if p.1 == k then (k, r) :: kmSet rest k r else p :: kmSet rest k r

/-- `get_all_io_objects_dict(self)`. -/
def get_all_io_objects_dict (s : FWState) : KindMap :=
  [("ipsets", mergedReg s.ipsets s.builtin_ipsets),
   ("helpers", mergedReg s.helpers s.builtin_helpers),
   ("icmptypes", mergedReg s.icmptypes s.builtin_icmptypes),
   ("services", mergedReg s.services s.builtin_services),
   ("zones", mergedReg s.zones s.builtin_zones),
   ("policies", mergedReg s.policy_objects s.builtin_policy_objects)]

/-- The `extra_io_objects` argument of `full_check_config`: candidate
objects per kind key. -/
abbrev Extras := List (String × List ConfObj)

/-- The inner loop of the extras mix-in:
`for obj in extra_io_objects[type_key]: all_io_objects[type_key][obj.name] = obj`. -/
def overlayObjs (k : String) : List ConfObj → KindMap → KindMap
  | [], m => m
  | o :: os, m => overlayObjs k os (kmSet m k (insertReg (kmLookup m k) o.name o))

/-- The outer loop of the extras mix-in over the kind keys of
`extra_io_objects`. -/
def overlayExtras (m : KindMap) : Extras → KindMap
  | [] => m
  | kv :: rest => overlayExtras (overlayObjs kv.1 kv.2 m) rest

/-- The fixed validation order of `full_check_config`. -/
def checkOrder : List String :=
  ["ipsets", "helpers", "icmptypes", "services", "zones", "policies"]

/-- The sequence of validator invocations a check performs (kind key,
object name, exported payload passed to the validator) together with its
outcome (`none` = all validators passed, `some e` = the first structural
error, which aborts the check). -/
structure CheckTrace where
  visited : List (String × String × Conf)
  outcome : Option FwError
  deriving DecidableEq

/-- The inner loop of `full_check_config` over one kind's merged dict:
`io_obj.check_config_dict(io_obj.export_config_dict(), all_io_objects)`
for each entry, aborting at the first failure. -/
def runKind (validate : Conf → KindMap → Option FwError) (allObjs : KindMap)
    (k : String) : Registry → CheckTrace
  | [] => ⟨[], none⟩
  | (n, o) :: rest =>
    match validate o.payload allObjs with
    | some e => ⟨[(k, n, o.payload)], some e⟩
    | none =>
      let t := runKind validate allObjs k rest
      ⟨(k, n, o.payload) :: t.visited, t.outcome⟩

/-- The outer loop of `full_check_config` over the kind keys in order. -/
def runKinds (validate : Conf → KindMap → Option FwError) (allObjs : KindMap) :
    List String → CheckTrace
  | [] => ⟨[], none⟩
  | k :: ks =>
    let t := runKind validate allObjs k (kmLookup allObjs k)
    match t.outcome with
    | some _ => t
    | none =>
      let t2 := runKinds validate allObjs ks
      ⟨t.visited ++ t2.visited, t2.outcome⟩

/-- `full_check_config(extra_io_objects)`: overlay the candidates on the
merged snapshot, then run every kind's validators in `checkOrder`.  The
per-object validator (`check_config_dict`, an external collaborator) is
the `validate` parameter; `export_config_dict` is the identity on the
opaque payload. -/
def full_check_config (validate : Conf → KindMap → Option FwError) (s : FWState)
    (extras : Extras) : CheckTrace :=
  runKinds validate (overlayExtras (get_all_io_objects_dict s) extras) checkOrder

/-! Specification-side definitions for C6, written from the claim's words
rather than from the source, to be proved equal to the source embedding. -/

/-- Per-kind candidate objects, in overlay order. -/
def extrasFor (extras : Extras) (k : String) : List ConfObj :=
  (extras.filter (fun p => p.1 == k)).flatMap Prod.snd

/-- The claim's merged map, read at one name: the last same-named
candidate if any, else the registered custom-tier entry, else the
registered builtin-tier entry. -/
def specMergedLookup (s : FWState) (k : Kind) (extras : Extras) (n : String) :
    Option ConfObj :=
  match (extrasFor extras k.key).reverse.find? (fun o => o.name == n) with
  | some o => some o
  | none => twoTier (k.customOf s) (k.builtinOf s) n

/-- Overlay a list of candidates on a registry by name. -/
def overlayRegList (r : Registry) (objs : List ConfObj) : Registry :=
  objs.foldl (fun a o => insertReg a o.name o) r

/-- The claim's visitation sequence: the kinds in the fixed order, and
within a kind every object of its merged map, paired with the exported
payload handed to the validator. -/
def expectedCalls (allObjs : KindMap) : List (String × String × Conf) :=
  checkOrder.flatMap (fun k => (kmLookup allObjs k).map (fun p => (k, p.1, p.2.payload)))

/-- The claim's check semantics: run the expected calls in order against
the full merged map, stopping at the first validator failure. -/
def specTrace (validate : Conf → KindMap → Option FwError) (allObjs : KindMap) :
    List (String × String × Conf) → CheckTrace
  | [] => ⟨[], none⟩
  | c :: cs =>
    match validate c.2.2 allObjs with
    | some e => ⟨[c], some e⟩
    | none =>
      let t := specTrace validate allObjs cs
      ⟨c :: t.visited, t.outcome⟩

/-- The empty twelve-dict state right after `__init_vars`. -/
def fwEmpty : FWState := ⟨[], [], [], [], [], [], [], [], [], [], [], []⟩

/-- `new_ipset(name, conf)` at the full six-kind state, with the real
`full_check_config` in the pipeline (the per-kind `new_obj` above
abstracts this check into a hook). -/
def new_ipset (validate : Conf → KindMap → Option FwError)
    (checkName : String → Option FwError) (importConf : Conf → Except FwError Conf)
    (customRoot : String) (s : FWState) (nm : String) (conf : Conf) :
    Except FwError ConfObj × FWState × List FileOp :=
  if memberReg s.ipsets nm || memberReg s.builtin_ipsets nm then
    (.error (.nameConflict nm), s, [])
  else
    match checkName nm with
    | some e => (.error e, s, [])
    | none =>
      match importConf conf with
      | .error e => (.error e, s, [])
      | .ok p =>
        let x : ConfObj := ⟨nm, nm ++ ".xml", customRoot, false, true, p⟩
        match (full_check_config validate s [("ipsets", [x])]).outcome with
        | some e => (.error e, s, [])
        | none =>
          (.ok x, { s with ipsets := insertReg s.ipsets nm x },
           [.write x.path x.filename])

/-! ### Lemmas for the validation orderer -/

theorem find_append_split {α : Type} (p : α → Bool) (l1 l2 : List α) :
    (l1 ++ l2).find? p =
      (match l1.find? p with
       | some a => some a
       | none => l2.find? p) := by
  induction l1 with
  | nil => simp
  | cons a as ih =>
    by_cases hp : p a <;> simp [List.find?_cons, hp, ih]

theorem lookup_eq_none_of_not_mem {r : Registry} {n : String}
    (h : ¬ n ∈ regNames r) : lookupReg r n = none := by
  induction r with
  | nil => rfl
  | cons p rest ih =>
    simp only [regNames, List.map_cons, List.mem_cons, not_or] at h
    simp [lookupReg, Ne.symm h.1]
    exact ih (by simpa [regNames] using h.2)

theorem mem_insertSorted {x n : String} : ∀ {l : List String},
    n ∈ insertSorted x l ↔ n = x ∨ n ∈ l := by
  intro l
  induction l with
  | nil => simp [insertSorted]
  | cons y ys ih =>
    by_cases hxy : strLe x y = true
    · simp [insertSorted, hxy]
    · simp [insertSorted, hxy, ih, or_left_comm]

theorem mem_sortStrings {n : String} : ∀ {l : List String},
    n ∈ sortStrings l ↔ n ∈ l := by
  intro l
  induction l with
  | nil => simp [sortStrings]
  | cons x xs ih => simp [sortStrings, mem_insertSorted, ih]

theorem lookup_filterMap_pairs (g : String → Option ConfObj) (names : List String)
    (n : String) :
    lookupReg (names.filterMap (fun m => (g m).map (fun o => (m, o)))) n =
      if n ∈ names then g n else none := by
  induction names with
  | nil => simp [lookupReg]
  | cons m ms ih =>
    cases hg : g m with
    | none =>
      by_cases hnm : n = m
      · subst hnm
        simp [List.filterMap_cons, hg, ih]
      · simp [List.filterMap_cons, hg, ih, hnm]
    | some o =>
      by_cases hnm : n = m
      · subst hnm
        simp [List.filterMap_cons, hg, lookupReg]
      · simp [List.filterMap_cons, hg, lookupReg, hnm, Ne.symm hnm, ih]

theorem lookup_mergedReg (c b : Registry) (n : String) :
    lookupReg (mergedReg c b) n = twoTier c b n := by
  rw [mergedReg, lookup_filterMap_pairs]
  by_cases hn : n ∈ sortStrings ((regNames c ++ regNames b).dedup)
  · simp [hn]
  · rw [if_neg hn]
    rw [mem_sortStrings, List.mem_dedup, List.mem_append] at hn
    push_neg at hn
    simp [twoTier, lookup_eq_none_of_not_mem hn.1, lookup_eq_none_of_not_mem hn.2]

theorem kmKeys_kmSet (m : KindMap) (k : String) (r : Registry) :
    (kmSet m k r).map Prod.fst = m.map Prod.fst := by
  induction m with
  | nil => rfl
  | cons p rest ih =>
    by_cases hp : p.1 = k <;> simp [kmSet, hp, ih]

theorem kmLookup_kmSet_self (m : KindMap) (k : String) (r : Registry)
    (hk : k ∈ m.map Prod.fst) : kmLookup (kmSet m k r) k = r := by
  induction m with
  | nil => simp at hk
  | cons p rest ih =>
    by_cases hp : p.1 = k
    · simp [kmSet, hp, kmLookup]
    · have hk2 : k ∈ rest.map Prod.fst := by
        rw [List.map_cons] at hk
        rcases List.mem_cons.mp hk with h1 | h1
        · exact absurd h1.symm hp
        · exact h1
      simp [kmSet, hp, kmLookup]
      exact ih hk2

theorem kmLookup_kmSet_ne (m : KindMap) (k k' : String) (r : Registry)
    (h : k' ≠ k) : kmLookup (kmSet m k r) k' = kmLookup m k' := by
  induction m with
  | nil => rfl
  | cons p rest ih =>
    by_cases hp : p.1 = k
    · simp [kmSet, hp, kmLookup, Ne.symm h, ih]
    · cases hpk : (p.1 == k') <;> simp [kmSet, hp, kmLookup, hpk, ih]

theorem overlayObjs_keys (k : String) (objs : List ConfObj) (m : KindMap) :
    (overlayObjs k objs m).map Prod.fst = m.map Prod.fst := by
  induction objs generalizing m with
  | nil => rfl
  | cons o os ih => simp [overlayObjs, ih, kmKeys_kmSet]

theorem overlayObjs_lookup_ne (k k' : String) (objs : List ConfObj) (m : KindMap)
    (h : k' ≠ k) : kmLookup (overlayObjs k objs m) k' = kmLookup m k' := by
  induction objs generalizing m with
  | nil => rfl
  | cons o os ih =>
    rw [overlayObjs, ih, kmLookup_kmSet_ne _ _ _ _ h]

theorem overlayObjs_lookup_self (k : String) (objs : List ConfObj) (m : KindMap)
    (hk : k ∈ m.map Prod.fst) :
    kmLookup (overlayObjs k objs m) k = overlayRegList (kmLookup m k) objs := by
  induction objs generalizing m with
  | nil => rfl
  | cons o os ih =>
    have hk2 : k ∈ (kmSet m k (insertReg (kmLookup m k) o.name o)).map Prod.fst := by
      rw [kmKeys_kmSet]; exact hk
    rw [overlayObjs, ih _ hk2, kmLookup_kmSet_self _ _ _ hk]
    rfl

theorem extrasFor_cons (kv : String × List ConfObj) (rest : Extras) (k : String) :
    extrasFor (kv :: rest) k =
      (if kv.1 = k then kv.2 else []) ++ extrasFor rest k := by
  by_cases h : kv.1 = k <;> simp [extrasFor, List.filter_cons, h]

theorem overlayRegList_append (r : Registry) (a b : List ConfObj) :
    overlayRegList r (a ++ b) = overlayRegList (overlayRegList r a) b := by
  simp [overlayRegList, List.foldl_append]

theorem overlayExtras_lookup (extras : Extras) (m : KindMap) (k : String)
    (hk : k ∈ m.map Prod.fst) :
    kmLookup (overlayExtras m extras) k =
      overlayRegList (kmLookup m k) (extrasFor extras k) := by
  induction extras generalizing m with
  | nil => simp [overlayExtras, extrasFor, overlayRegList]
  | cons kv rest ih =>
    by_cases hkv : kv.1 = k
    · subst hkv
      have hk2 : kv.1 ∈ (overlayObjs kv.1 kv.2 m).map Prod.fst := by
        rw [overlayObjs_keys]; exact hk
      rw [overlayExtras, ih _ hk2, extrasFor_cons, if_pos rfl, overlayRegList_append,
          overlayObjs_lookup_self kv.1 kv.2 m hk]
    · have hk2 : k ∈ (overlayObjs kv.1 kv.2 m).map Prod.fst := by
        rw [overlayObjs_keys]; exact hk
      rw [overlayExtras, ih _ hk2, extrasFor_cons, if_neg hkv,
          overlayObjs_lookup_ne kv.1 k kv.2 m (fun h1 => hkv h1.symm), List.nil_append]

theorem lookup_overlayRegList (r : Registry) (objs : List ConfObj) (n : String) :
    lookupReg (overlayRegList r objs) n =
      (match objs.reverse.find? (fun o => o.name == n) with
       | some o => some o
       | none => lookupReg r n) := by
  induction objs generalizing r with
  | nil => simp [overlayRegList]
  | cons o os ih =>
    have h1 : overlayRegList r (o :: os) = overlayRegList (insertReg r o.name o) os := rfl
    rw [h1, ih, List.reverse_cons, find_append_split]
    cases hf : os.reverse.find? (fun x => x.name == n) with
    | some a => simp
    | none =>
      simp only [lookup_insert]
      by_cases hn : n = o.name
      · simp [List.find?, hn]
      · have hb : (o.name == n) = false := beq_eq_false_iff_ne.mpr (Ne.symm hn)
        simp [List.find?, hn, hb]

theorem getAll_keys (s : FWState) :
    (get_all_io_objects_dict s).map Prod.fst = checkOrder := rfl

theorem key_mem_checkOrder (k : Kind) : k.key ∈ checkOrder := by
  cases k <;> simp [Kind.key, checkOrder]

theorem kmLookup_getAll (s : FWState) (k : Kind) :
    kmLookup (get_all_io_objects_dict s) k.key =
      mergedReg (k.customOf s) (k.builtinOf s) := by
  cases k <;> rfl

theorem runKind_eq_specTrace (validate : Conf → KindMap → Option FwError)
    (allObjs : KindMap) (k : String) (r : Registry) :
    runKind validate allObjs k r =
      specTrace validate allObjs (r.map (fun p => (k, p.1, p.2.payload))) := by
  induction r with
  | nil => rfl
  | cons p rest ih =>
    obtain ⟨n, o⟩ := p
    cases hv : validate o.payload allObjs <;> simp [runKind, specTrace, hv, ih]

theorem specTrace_append (validate : Conf → KindMap → Option FwError)
    (allObjs : KindMap) (xs ys : List (String × String × Conf)) :
    specTrace validate allObjs (xs ++ ys) =
      (match (specTrace validate allObjs xs).outcome with
       | some _ => specTrace validate allObjs xs
       | none =>
         ⟨(specTrace validate allObjs xs).visited ++
            (specTrace validate allObjs ys).visited,
          (specTrace validate allObjs ys).outcome⟩) := by
  induction xs with
  | nil => simp [specTrace]
  | cons c cs ih =>
    cases hv : validate c.2.2 allObjs with
    | some e => simp [specTrace, hv]
    | none =>
      have hx : specTrace validate allObjs (c :: cs) =
          ⟨c :: (specTrace validate allObjs cs).visited,
           (specTrace validate allObjs cs).outcome⟩ := by
        simp [specTrace, hv]
      have hy : specTrace validate allObjs (c :: (cs ++ ys)) =
          ⟨c :: (specTrace validate allObjs (cs ++ ys)).visited,
           (specTrace validate allObjs (cs ++ ys)).outcome⟩ := by
        simp [specTrace, hv]
      rw [List.cons_append, hy, hx, ih]
      cases ho : (specTrace validate allObjs cs).outcome <;> simp [ho]

theorem runKinds_eq_specTrace (validate : Conf → KindMap → Option FwError)
    (allObjs : KindMap) (ks : List String) :
    runKinds validate allObjs ks =
      specTrace validate allObjs
        (ks.flatMap (fun k => (kmLookup allObjs k).map (fun p => (k, p.1, p.2.payload)))) := by
  induction ks with
  | nil => rfl
  | cons k ks ih =>
    have h1 : (k :: ks).flatMap
        (fun k => (kmLookup allObjs k).map (fun p => (k, p.1, p.2.payload))) =
        ((kmLookup allObjs k).map (fun p => (k, p.1, p.2.payload))) ++
          ks.flatMap (fun k => (kmLookup allObjs k).map (fun p => (k, p.1, p.2.payload))) := by
      simp
    rw [h1, specTrace_append, ← ih, ← runKind_eq_specTrace]
    cases ho : (runKind validate allObjs k (kmLookup allObjs k)).outcome <;>
      simp [runKinds, ho]

/-- C6: `full_check_config` builds one merged map per kind (registered
objects with the candidates overlaid by name), and equals the
specification-side check that visits the kinds in exactly the order
ipsets, helpers, icmptypes, services, zones, policies, invoking each
object's validator with its exported payload and the full merged map and
aborting at the first failure; and in the creation pipeline a check
failure means the error is raised with no object registered and no file
written. -/
theorem full_check_config_correct (validate : Conf → KindMap → Option FwError)
    (s : FWState) (extras : Extras) :
    (∀ (k : Kind) (n : String),
      lookupReg (kmLookup (overlayExtras (get_all_io_objects_dict s) extras) k.key) n =
        specMergedLookup s k extras n) ∧
    full_check_config validate s extras =
      specTrace validate (overlayExtras (get_all_io_objects_dict s) extras)
        (expectedCalls (overlayExtras (get_all_io_objects_dict s) extras)) ∧
    (∀ (nm : String) (conf p : Conf) (checkName : String → Option FwError)
        (importConf : Conf → Except FwError Conf) (customRoot : String) (e : FwError),
      memberReg s.ipsets nm = false → memberReg s.builtin_ipsets nm = false →
      checkName nm = none → importConf conf = Except.ok p →
      (full_check_config validate s
          [("ipsets", [⟨nm, nm ++ ".xml", customRoot, false, true, p⟩])]).outcome = some e →
      new_ipset validate checkName importConf customRoot s nm conf =
        (Except.error e, s, ([] : List FileOp))) := by
  refine ⟨?_, ?_, ?_⟩
  · intro k n
    rw [overlayExtras_lookup extras _ k.key (by rw [getAll_keys]; exact key_mem_checkOrder k),
        kmLookup_getAll, lookup_overlayRegList, lookup_mergedReg]
    rfl
  · exact runKinds_eq_specTrace validate _ checkOrder
  · intro nm conf p checkName importConf customRoot e hm1 hm2 hcn himp hout
    simp [new_ipset, hm1, hm2, hcn, himp, hout]

/-- C6 witness: with an always-failing validator, creating an ipset into
an empty state aborts with the validator's error, registering nothing and
writing nothing. -/
theorem full_check_config_correct_witness :
    new_ipset (fun _ _ => some (.validationError "bad")) (fun _ => none)
        (fun c => Except.ok c) "/etc/firewalld/ipsets" fwEmpty "office" 5 =
      (Except.error (.validationError "bad"), fwEmpty, ([] : List FileOp)) :=
  (full_check_config_correct (fun _ _ => some (.validationError "bad")) fwEmpty []).2.2
    "office" 5 5 (fun _ => none) (fun c => Except.ok c) "/etc/firewalld/ipsets"
    (.validationError "bad") rfl rfl rfl rfl (by decide)

/-! ### Bulk reset and snapshot replay -/

/-- One replayed operation of `restore_settings_dict`: the kind's own
`set_<kind>_config` entry point for an object that differs from the
current entry, or the kind's own `new_<kind>` entry point for an object to
re-create. -/
inductive ReplayOp where
  | setConf (kind name : String)
  | newObj (kind name : String)
  deriving DecidableEq

def ReplayOp.kind : ReplayOp → String
  | .setConf k _ => k
  | .newObj k _ => k

def ReplayOp.name : ReplayOp → String
  | .setConf _ n => n
  | .newObj _ n => n

/-- The branch pattern of `restore_settings_dict` used for icmptypes,
helpers and zones: a snapshot object differing from the current entry is
reapplied via `set_<kind>_config`; one absent from the current state is
re-created via `new_<kind>` (`elif current_obj is None`). -/
def restoreKindA (kind : String) (snap cur : Registry) : List ReplayOp :=
  snap.flatMap (fun p =>
    match lookupReg cur p.2.name with
    | some c => if c ≠ p.2 then [ReplayOp.setConf kind p.2.name] else []
    | none => [ReplayOp.newObj kind p.2.name])

/-- The branch pattern used for services, ipsets and policies: the guard
is `elif <loop-variable> is None` instead of `elif current_obj is None`,
and a dict value is never `None`, so a snapshot object absent from the
current state is silently skipped. -/
def restoreKindB (kind : String) (snap cur : Registry) : List ReplayOp :=
  snap.flatMap (fun p =>
    match lookupReg cur p.2.name with
    | some c => if c ≠ p.2 then [ReplayOp.setConf kind p.2.name] else []
    | none => [])

/-- `restore_settings_dict(settings_dict, ...)` as the trace of replayed
per-object entry-point calls, in the order the source performs them:
icmptypes, helpers, services, ipsets, policies, zones.  `snap` is the
backed-up snapshot, `cur` the deep copy of `get_all_io_objects_dict()`
taken on entry. -/
def restore_settings_trace (snap cur : KindMap) : List ReplayOp :=
  restoreKindA "icmptypes" (kmLookup snap "icmptypes") (kmLookup cur "icmptypes") ++
  (restoreKindA "helpers" (kmLookup snap "helpers") (kmLookup cur "helpers") ++
  (restoreKindB "services" (kmLookup snap "services") (kmLookup cur "services") ++
  (restoreKindB "ipsets" (kmLookup snap "ipsets") (kmLookup cur "ipsets") ++
  (restoreKindB "policies" (kmLookup snap "policies") (kmLookup cur "policies") ++
  restoreKindA "zones" (kmLookup snap "zones") (kmLookup cur "zones")))))

/-- Failure behavior of the external file system during `_reset_defaults`:
whether `shutil.move` to the `.old` sibling fails for a file, whether the
fallback `os.remove` also fails (in which case the exception propagates),
and whether the final `firewalld.conf` write fails. -/
structure ResetHooks where
  moveFails : String → Bool
  removeFails : String → Bool
  confWriteFails : Bool

/-- The per-kind loop body of `_reset_defaults`: iterate a copy of the
custom dict; for each object back up (or, failing that, delete) its file
and delete the registry entry; an unremovable file aborts the loop with
the OS error, leaving the remaining entries in place. -/
def resetKindGo (h : ResetHooks) (k : Kind) :
    Registry → FWState → List FileOp → Option FwError × FWState × List FileOp
  | [], s, ops => (none, s, ops)
  | (nm, o) :: rest, s, ops =>
    let fname := o.path ++ "/" ++ o.filename
    if h.moveFails fname then
      if h.removeFails fname then (some (.osError fname), s, ops)
      else
        resetKindGo h k rest (k.setCustomOf s (eraseReg (k.customOf s) nm))
          (ops ++ [.removeFile fname])
    else
      resetKindGo h k rest (k.setCustomOf s (eraseReg (k.customOf s) nm))
        (ops ++ [.backupMove fname])

/-- The kind order of `_reset_defaults`: zones, policies, ipsets,
services, helpers, icmptypes. -/
def resetKindOrder : List Kind :=
  [.zones, .policies, .ipsets, .services, .helpers, .icmptypes]

/-- The outer loop of `_reset_defaults`, followed by the
`firewalld.conf` reset and write. -/
def resetKinds (h : ResetHooks) : List Kind → FWState → List FileOp →
    Option FwError × FWState × List FileOp
  | [], s, ops =>
    if h.confWriteFails then (some (.osError "firewalld.conf"), s, ops)
    else (none, s, ops)
  | k :: ks, s, ops =>
    match resetKindGo h k (k.customOf s) s ops with
    | (some e, s1, ops1) => (some e, s1, ops1)
    | (none, s1, ops1) => resetKinds h ks s1 ops1

/-- `_reset_defaults()`. -/
def resetDefaultsInner (h : ResetHooks) (s : FWState) :
    Option FwError × FWState × List FileOp :=
  resetKinds h resetKindOrder s []

/-- `reset_defaults()`: snapshot the full merged state, attempt
`_reset_defaults`, and on failure replay the snapshot through
`restore_settings_dict` (traced as `ReplayOp`s) and re-raise the original
error. -/
def reset_defaults (h : ResetHooks) (s : FWState) :
    Except FwError Unit × FWState × List ReplayOp :=
  match resetDefaultsInner h s with
  | (none, s1, _) => (.ok (), s1, [])
  | (some e, s1, _) =>
    (.error e, s1,
     restore_settings_trace (get_all_io_objects_dict s) (get_all_io_objects_dict s1))

/-- The position of a kind key in the replay order the source actually
performs (icmptypes, helpers, services, ipsets, policies, zones). -/
def actualRestoreIdx (k : String) : Nat :=
  if k = "icmptypes" then 0 else if k = "helpers" then 1
  else if k = "services" then 2 else if k = "ipsets" then 3
  else if k = "policies" then 4 else if k = "zones" then 5 else 6

/-- The position of a kind key in the replay order the claim states
(address-sets, helpers, ICMP types, services, policies, zones). -/
def claimedRestoreIdx (k : String) : Nat :=
  if k = "ipsets" then 0 else if k = "helpers" then 1
  else if k = "icmptypes" then 2 else if k = "services" then 3
  else if k = "policies" then 4 else if k = "zones" then 5 else 6

/-- "Processed kind-by-kind in the order given by `idx`": adjacent kinds
have non-decreasing positions, which both groups each kind's block and
orders the blocks. -/
def ordChain (idx : String → Nat) : List String → Bool
  | [] => true
  | [_] => true
  | a :: b :: rest => Nat.ble (idx a) (idx b) && ordChain idx (b :: rest)

/-! ### Lemmas for the replay trace -/

theorem restoreKindA_shape (kind : String) (snap cur : Registry) :
    ∀ op ∈ restoreKindA kind snap cur,
      op.kind = kind ∧ ∃ p ∈ snap, p.2.name = op.name := by
  intro op hop
  rw [restoreKindA, List.mem_flatMap] at hop
  obtain ⟨p, hp, hin⟩ := hop
  cases hl : lookupReg cur p.2.name with
  | none =>
    rw [hl] at hin
    simp at hin
    subst hin
    exact ⟨rfl, p, hp, rfl⟩
  | some c =>
    rw [hl] at hin
    by_cases hc : c ≠ p.2
    · simp [hc] at hin
      subst hin
      exact ⟨rfl, p, hp, rfl⟩
    · simp [hc] at hin

theorem restoreKindB_shape (kind : String) (snap cur : Registry) :
    ∀ op ∈ restoreKindB kind snap cur,
      op.kind = kind ∧ ∃ p ∈ snap, p.2.name = op.name := by
  intro op hop
  rw [restoreKindB, List.mem_flatMap] at hop
  obtain ⟨p, hp, hin⟩ := hop
  cases hl : lookupReg cur p.2.name with
  | none =>
    rw [hl] at hin
    simp at hin
  | some c =>
    rw [hl] at hin
    by_cases hc : c ≠ p.2
    · simp [hc] at hin
      subst hin
      exact ⟨rfl, p, hp, rfl⟩
    · simp [hc] at hin

theorem kinds_idx_A (idx : String → Nat) (kind : String) (i : Nat)
    (hi : idx kind = i) (snap cur : Registry) :
    ∀ a ∈ (restoreKindA kind snap cur).map ReplayOp.kind, idx a = i := by
  intro a ha
  rw [List.mem_map] at ha
  obtain ⟨op, hop, rfl⟩ := ha
  rw [(restoreKindA_shape kind snap cur op hop).1, hi]

theorem kinds_idx_B (idx : String → Nat) (kind : String) (i : Nat)
    (hi : idx kind = i) (snap cur : Registry) :
    ∀ a ∈ (restoreKindB kind snap cur).map ReplayOp.kind, idx a = i := by
  intro a ha
  rw [List.mem_map] at ha
  obtain ⟨op, hop, rfl⟩ := ha
  rw [(restoreKindB_shape kind snap cur op hop).1, hi]

theorem ordChain_const (idx : String → Nat) (l : List String) (i : Nat)
    (h : ∀ a ∈ l, idx a = i) : ordChain idx l = true := by
  induction l with
  | nil => rfl
  | cons a l ih =>
    cases l with
    | nil => rfl
    | cons b rest =>
      have h1 : idx a ≤ idx b := by
        rw [h a (by simp), h b (by simp)]
      have h2 := ih (fun x hx => h x (List.mem_cons_of_mem _ hx))
      show (Nat.ble (idx a) (idx b) && ordChain idx (b :: rest)) = true
      simp [Nat.ble_eq, h1, h2]

theorem ordChain_append (idx : String → Nat) (xs ys : List String) (i : Nat)
    (hxs : ∀ a ∈ xs, idx a = i) (hys : ∀ b ∈ ys, i ≤ idx b)
    (hy : ordChain idx ys = true) : ordChain idx (xs ++ ys) = true := by
  induction xs with
  | nil => simpa using hy
  | cons a xs ih =>
    have hxs' : ∀ x ∈ xs, idx x = i := fun x hx => hxs x (List.mem_cons_of_mem _ hx)
    have htail : ordChain idx (xs ++ ys) = true := ih hxs'
    rw [List.cons_append]
    cases hxy : xs ++ ys with
    | nil => rfl
    | cons b rest =>
      have hb : idx a ≤ idx b := by
        have hmem : b ∈ xs ++ ys := by rw [hxy]; exact List.mem_cons_self _ _
        rcases List.mem_append.mp hmem with h1 | h1
        · rw [hxs a (List.mem_cons_self _ _), hxs' b h1]
        · rw [hxs a (List.mem_cons_self _ _)]; exact hys b h1
      rw [hxy] at htail
      show (Nat.ble (idx a) (idx b) && ordChain idx (b :: rest)) = true
      simp [Nat.ble_eq, hb, htail]

theorem restore_trace_ordChain (snap cur : KindMap) :
    ordChain actualRestoreIdx
      ((restore_settings_trace snap cur).map ReplayOp.kind) = true := by
  unfold restore_settings_trace
  repeat rw [List.map_append]
  refine ordChain_append _ _ _ 0
    (kinds_idx_A actualRestoreIdx "icmptypes" 0 (by decide) _ _)
    (fun b _ => Nat.zero_le _) ?_
  refine ordChain_append _ _ _ 1
    (kinds_idx_A actualRestoreIdx "helpers" 1 (by decide) _ _) ?_ ?_
  · intro b hb
    rcases List.mem_append.mp hb with h | hb
    · rw [kinds_idx_B actualRestoreIdx "services" 2 (by decide) _ _ b h]; omega
    rcases List.mem_append.mp hb with h | hb
    · rw [kinds_idx_B actualRestoreIdx "ipsets" 3 (by decide) _ _ b h]; omega
    rcases List.mem_append.mp hb with h | h
    · rw [kinds_idx_B actualRestoreIdx "policies" 4 (by decide) _ _ b h]; omega
    · rw [kinds_idx_A actualRestoreIdx "zones" 5 (by decide) _ _ b h]; omega
  refine ordChain_append _ _ _ 2
    (kinds_idx_B actualRestoreIdx "services" 2 (by decide) _ _) ?_ ?_
  · intro b hb
    rcases List.mem_append.mp hb with h | hb
    · rw [kinds_idx_B actualRestoreIdx "ipsets" 3 (by decide) _ _ b h]; omega
    rcases List.mem_append.mp hb with h | h
    · rw [kinds_idx_B actualRestoreIdx "policies" 4 (by decide) _ _ b h]; omega
    · rw [kinds_idx_A actualRestoreIdx "zones" 5 (by decide) _ _ b h]; omega
  refine ordChain_append _ _ _ 3
    (kinds_idx_B actualRestoreIdx "ipsets" 3 (by decide) _ _) ?_ ?_
  · intro b hb
    rcases List.mem_append.mp hb with h | h
    · rw [kinds_idx_B actualRestoreIdx "policies" 4 (by decide) _ _ b h]; omega
    · rw [kinds_idx_A actualRestoreIdx "zones" 5 (by decide) _ _ b h]; omega
  refine ordChain_append _ _ _ 4
    (kinds_idx_B actualRestoreIdx "policies" 4 (by decide) _ _) ?_ ?_
  · intro b h
    rw [kinds_idx_A actualRestoreIdx "zones" 5 (by decide) _ _ b h]; omega
  exact ordChain_const _ _ 5 (kinds_idx_A actualRestoreIdx "zones" 5 (by decide) _ _)

theorem restore_trace_shape (snap cur : KindMap) :
    ∀ op ∈ restore_settings_trace snap cur,
      (op.kind = "icmptypes" ∨ op.kind = "helpers" ∨ op.kind = "services" ∨
       op.kind = "ipsets" ∨ op.kind = "policies" ∨ op.kind = "zones") ∧
      ∃ p ∈ kmLookup snap op.kind, p.2.name = op.name := by
  intro op hop
  unfold restore_settings_trace at hop
  rcases List.mem_append.mp hop with h | hop
  · obtain ⟨hk, hp⟩ := restoreKindA_shape _ _ _ op h
    exact ⟨Or.inl hk, by rw [hk]; exact hp⟩
  rcases List.mem_append.mp hop with h | hop
  · obtain ⟨hk, hp⟩ := restoreKindA_shape _ _ _ op h
    exact ⟨Or.inr (Or.inl hk), by rw [hk]; exact hp⟩
  rcases List.mem_append.mp hop with h | hop
  · obtain ⟨hk, hp⟩ := restoreKindB_shape _ _ _ op h
    exact ⟨Or.inr (Or.inr (Or.inl hk)), by rw [hk]; exact hp⟩
  rcases List.mem_append.mp hop with h | hop
  · obtain ⟨hk, hp⟩ := restoreKindB_shape _ _ _ op h
    exact ⟨Or.inr (Or.inr (Or.inr (Or.inl hk))), by rw [hk]; exact hp⟩
  rcases List.mem_append.mp hop with h | h
  · obtain ⟨hk, hp⟩ := restoreKindB_shape _ _ _ op h
    exact ⟨Or.inr (Or.inr (Or.inr (Or.inr (Or.inl hk)))), by rw [hk]; exact hp⟩
  · obtain ⟨hk, hp⟩ := restoreKindA_shape _ _ _ op h
    exact ⟨Or.inr (Or.inr (Or.inr (Or.inr (Or.inr hk)))), by rw [hk]; exact hp⟩

/-! ### Concrete reset scenarios -/

/-- Custom icmptype `i1`, shadowing a builtin. -/
def icmpC1 : ConfObj := ⟨"i1", "i1.xml", "/etc/firewalld/icmptypes", false, true, 11⟩

/-- Custom icmptype `i2`, whose file cannot be backed up or removed. -/
def icmpC2 : ConfObj := ⟨"i2", "i2.xml", "/etc/firewalld/icmptypes", false, true, 12⟩

/-- Builtin icmptype `i1`. -/
def icmpB1 : ConfObj := ⟨"i1", "i1.xml", "/usr/lib/firewalld/icmptypes", true, true, 13⟩

/-- Custom ipset `p1`, shadowing a builtin. -/
def ipsC : ConfObj := ⟨"p1", "p1.xml", "/etc/firewalld/ipsets", false, true, 14⟩

/-- Builtin ipset `p1`. -/
def ipsB : ConfObj := ⟨"p1", "p1.xml", "/usr/lib/firewalld/ipsets", true, true, 15⟩

/-- A state holding custom icmptypes `i1`, `i2` and a custom ipset `p1`,
with builtin counterparts for `i1` and `p1`. -/
def s7 : FWState :=
  { fwEmpty with
    icmptypes := [("i1", icmpC1), ("i2", icmpC2)],
    builtin_icmptypes := [("i1", icmpB1)],
    ipsets := [("p1", ipsC)],
    builtin_ipsets := [("p1", ipsB)] }

/-- Hooks making the backup of `i2`'s file fail irrecoverably, so the
reset aborts after the ipset and `i1` were already dropped. -/
def h7 : ResetHooks :=
  { moveFails := fun f => f == "/etc/firewalld/icmptypes/i2.xml",
    removeFails := fun f => f == "/etc/firewalld/icmptypes/i2.xml",
    confWriteFails := false }

/-- Custom service `svc`, with no builtin counterpart. -/
def svcC : ConfObj := ⟨"svc", "svc.xml", "/etc/firewalld/services", false, true, 21⟩

/-- Custom icmptype `i1` for the failing-reset scenario of C8. -/
def icmpC3 : ConfObj := ⟨"i1", "i1.xml", "/etc/firewalld/icmptypes", false, true, 22⟩

/-- A state holding a custom service and a custom icmptype. -/
def s8 : FWState :=
  { fwEmpty with
    services := [("svc", svcC)],
    icmptypes := [("i1", icmpC3)] }

/-- Hooks making the backup of `i1`'s file fail irrecoverably, so the
reset aborts after the service file was already dropped. -/
def h8 : ResetHooks :=
  { moveFails := fun f => f == "/etc/firewalld/icmptypes/i1.xml",
    removeFails := fun f => f == "/etc/firewalld/icmptypes/i1.xml",
    confWriteFails := false }

/-! ### Claim theorems: bulk reset -/

/-- C7 (amended): when `reset_defaults` fails partway, the pre-operation
snapshot is replayed with each replayed object reapplied through its own
kind's create/update entry point, processed kind-by-kind in exactly the
order ICMP types, helpers, services, address-sets, policies, zones (not
the claimed address-sets, helpers, ICMP types, services, policies,
zones), and after replay completes the original failure is re-raised to
the caller. -/
theorem reset_defaults_replay (h : ResetHooks) (s : FWState) (e : FwError)
    (hfail : (resetDefaultsInner h s).1 = some e) :
    ordChain actualRestoreIdx (((reset_defaults h s).2.2).map ReplayOp.kind) = true ∧
    (∀ op ∈ (reset_defaults h s).2.2,
      (op.kind = "icmptypes" ∨ op.kind = "helpers" ∨ op.kind = "services" ∨
       op.kind = "ipsets" ∨ op.kind = "policies" ∨ op.kind = "zones") ∧
      ∃ p ∈ kmLookup (get_all_io_objects_dict s) op.kind, p.2.name = op.name) ∧
    (reset_defaults h s).1 = Except.error e := by
  have hrd : reset_defaults h s =
      (Except.error e, (resetDefaultsInner h s).2.1,
       restore_settings_trace (get_all_io_objects_dict s)
         (get_all_io_objects_dict (resetDefaultsInner h s).2.1)) := by
    rcases hx : resetDefaultsInner h s with ⟨oe, s1, ops⟩
    have h1 : oe = some e := by rw [hx] at hfail; exact hfail
    subst h1
    unfold reset_defaults
    rw [hx]
  rw [hrd]
  exact ⟨restore_trace_ordChain _ _, restore_trace_shape _ _, rfl⟩

/-- C7 witness: a reset that fails on `i2`'s icmptype file replays in the
actual order and re-raises the OS error. -/
theorem reset_defaults_replay_witness :
    ordChain actualRestoreIdx (((reset_defaults h7 s7).2.2).map ReplayOp.kind) = true ∧
    (reset_defaults h7 s7).1 =
      Except.error (.osError "/etc/firewalld/icmptypes/i2.xml") := by
  have h := reset_defaults_replay h7 s7 (.osError "/etc/firewalld/icmptypes/i2.xml")
    (by decide)
  exact ⟨h.1, h.2.2⟩

/-- C7 counterexample: the same failing reset replays the snapshot's
icmptype before its address-set, so the replay is not processed in the
claimed order address-sets, helpers, ICMP types, services, policies,
zones. -/
theorem reset_defaults_replay_order_cex :
    (reset_defaults h7 s7).1 =
      Except.error (.osError "/etc/firewalld/icmptypes/i2.xml") ∧
    (reset_defaults h7 s7).2.2 =
      [ReplayOp.setConf "icmptypes" "i1", ReplayOp.setConf "ipsets" "p1"] ∧
    ordChain claimedRestoreIdx (((reset_defaults h7 s7).2.2).map ReplayOp.kind) = false :=
  ⟨by rfl, by rfl, by rfl⟩

/-- C8: the claim is right and the code is wrong.  A custom service
present before a failing reset and missing afterwards is never re-created
during replay: the services (and ipsets, policies) restore branch guards
re-creation with `elif service is None` — a loop variable that is never
`None` — instead of `elif current_obj is None` as the icmptypes, helpers
and zones branches do.  Here the snapshot holds service `svc`, the failed
reset has dropped it, the replay trace is empty, and `svc` is still
missing after replay; the final conjunct shows the intended branch
pattern (the one used for icmptypes) would have re-created it. -/
theorem restore_missing_service_not_recreated :
    (reset_defaults h8 s8).1 =
      Except.error (.osError "/etc/firewalld/icmptypes/i1.xml") ∧
    kmLookup (get_all_io_objects_dict s8) "services" = [("svc", svcC)] ∧
    memberReg ((reset_defaults h8 s8).2.1).services "svc" = false ∧
    (reset_defaults h8 s8).2.2 = [] ∧
    restoreKindA "services" [("svc", svcC)] [] = [ReplayOp.newObj "services" "svc"] :=
  ⟨by rfl, by rfl, by rfl, by rfl, by rfl⟩

end FwConfig
